import Mathlib

/-!
# Verification of the tactikcheck move-quality analysis pipeline

Shallow embedding of `src/analyzer.py`: the score normalizer
(`score_to_cp`), the severity classifier (`classify`), the game walker
(`Analyzer.analyze_pgn`), and the retrieval strategy
(`Analyzer.fetch_pgns`, `split_pgn_bulk`).

External collaborators (the berserk lichess client, the python-chess board
and PGN parser, the stockfish engine, urllib, datetime) are modelled as
parameters: the embedding is generic over the board/move types and over the
oracle and transport functions, exactly at the call boundaries the Python
code uses them.
-/

namespace Tactikcheck

/-! ## Score normalizer (`score_to_cp`, analyzer.py lines 29-33)

A python-chess score (already `pov`-ed to a requested side by the caller)
is either a finite centipawn value or a forced mate.  `Score.mate m`
carries the signed mate distance: `m > 0` means the requested side delivers
mate in `m`, `m < 0` means it is mated in `-m`, `m = 0` means it stands
checkmated.  The Python code reads `m = score.mate()` and returns
`100000 if m and m > 0 else -100000`; since `m = 0` is falsy this is
`if m > 0 then 100000 else -100000`.  A finite score is returned as
`int(score.score(mate_score=100000))`, i.e. unchanged. -/

inductive EngineScore where
  | cp : Int → EngineScore
  | mate : Int → EngineScore
deriving Repr, DecidableEq

def score_to_cp : EngineScore → Int
  | .mate m => if 0 < m then 100000 else -100000
  | .cp v => v

/-! ## Severity classifier (`classify`, analyzer.py lines 35-42) -/

/-- The `thresholds` dict `{"inaccuracy": _, "mistake": _, "blunder": _}`. -/
structure ThresholdConfig where
  inaccuracy : Int
  mistake : Int
  blunder : Int
deriving Repr, DecidableEq

def classify (delta_cp : Int) (thresholds : ThresholdConfig) : Option String :=
  if delta_cp ≥ thresholds.blunder then some "blunder"
  else if delta_cp ≥ thresholds.mistake then some "mistake"
  else if delta_cp ≥ thresholds.inaccuracy then some "inaccuracy"
  else none

/-- Severity rank in the order used by the spec:
`none < inaccuracy < mistake < blunder`. -/
def sevRank : Option String → Nat
  | none => 0
  | some s =>
    if s = "blunder" then 3
    else if s = "mistake" then 2
    else if s = "inaccuracy" then 1
    else 0

/-- C3: `classify` checks the cutoffs from most to least severe and returns
the first tier whose cutoff the delta meets or exceeds; `none` below all. -/
theorem classify_first_match_characterization (d : Int) (t : ThresholdConfig) :
    (classify d t = some "blunder" ↔ t.blunder ≤ d) ∧
    (classify d t = some "mistake" ↔ t.mistake ≤ d ∧ d < t.blunder) ∧
    (classify d t = some "inaccuracy" ↔
      t.inaccuracy ≤ d ∧ d < t.mistake ∧ d < t.blunder) ∧
    (classify d t = none ↔ d < t.inaccuracy ∧ d < t.mistake ∧ d < t.blunder) := by
  unfold classify
  by_cases hb : d ≥ t.blunder <;> by_cases hm : d ≥ t.mistake <;>
    by_cases hi : d ≥ t.inaccuracy <;>
    simp [hb, hm, hi] <;> omega

/-- C4: with ordered cutoffs `inaccuracy ≤ mistake ≤ blunder`, `classify`
is monotone in the severity rank, and everything strictly below the
inaccuracy cutoff classifies to `none`. -/
theorem classify_monotone_rank (t : ThresholdConfig) (x y : Int)
    (him : t.inaccuracy ≤ t.mistake) (hmb : t.mistake ≤ t.blunder)
    (_hx : 0 ≤ x) (hxy : x ≤ y) :
    sevRank (classify x t) ≤ sevRank (classify y t) ∧
    (∀ z : Int, 0 ≤ z → z < t.inaccuracy → classify z t = none) := by
  constructor
  · unfold classify
    by_cases hbx : x ≥ t.blunder <;> by_cases hmx : x ≥ t.mistake <;>
      by_cases hix : x ≥ t.inaccuracy <;>
      by_cases hby : y ≥ t.blunder <;> by_cases hmy : y ≥ t.mistake <;>
      by_cases hiy : y ≥ t.inaccuracy <;>
      simp [hbx, hmx, hix, hby, hmy, hiy, sevRank] <;> omega
  · intro z _ hz
    unfold classify
    have h1 : ¬ (z ≥ t.blunder) := by omega
    have h2 : ¬ (z ≥ t.mistake) := by omega
    have h3 : ¬ (z ≥ t.inaccuracy) := by omega
    simp [h1, h2, h3]

/-- Witness for C4 at the spec's own scenario thresholds {50, 150, 300}. -/
theorem classify_monotone_rank_witness :
    sevRank (classify 160 ⟨50, 150, 300⟩) ≤ sevRank (classify 320 ⟨50, 150, 300⟩) ∧
    (∀ z : Int, 0 ≤ z → z < (50 : Int) → classify z ⟨50, 150, 300⟩ = none) :=
  classify_monotone_rank ⟨50, 150, 300⟩ 160 320 (by decide) (by decide)
    (by decide) (by decide)

/-- C5: the score normalizer collapses every favoring mate to the sentinel
100000 and every mate against the requested side to -100000, regardless of
the mate depth, and returns a finite evaluation unchanged. -/
theorem score_to_cp_mate_sentinel :
    (∀ m : Int, 0 < m → score_to_cp (.mate m) = 100000) ∧
    (∀ m : Int, m < 0 → score_to_cp (.mate m) = -100000) ∧
    (∀ v : Int, score_to_cp (.cp v) = v) := by
  refine ⟨fun m hm => ?_, fun m hm => ?_, fun v => rfl⟩
  · simp [score_to_cp, hm]
  · have h : ¬ (0 < m) := by omega
    simp [score_to_cp, h]

/-- Witness for C5: mate in 7 for, mate in 4 against, and a finite +37. -/
theorem score_to_cp_mate_sentinel_witness :
    score_to_cp (.mate 7) = 100000 ∧ score_to_cp (.mate (-4)) = -100000 ∧
    score_to_cp (.cp 37) = 37 :=
  ⟨score_to_cp_mate_sentinel.1 7 (by decide),
   score_to_cp_mate_sentinel.2.1 (-4) (by decide),
   score_to_cp_mate_sentinel.2.2 37⟩

/-! ## Python `str.strip()`

Strips leading and trailing whitespace (the ASCII whitespace characters
Python treats as such: space, tab, newline, carriage return, vertical tab,
form feed).  Used by `analyze_pgn` (`pgn_text.strip()`), `split_pgn_bulk`
(`text.strip()`, `p.strip()`) and `_download_via_berserk`
(`item.strip()`). -/

def isPySpace (c : Char) : Bool :=
  c == ' ' || c == '\t' || c == '\n' || c == '\r' ||
    c == '\x0b' || c == '\x0c'

def stripChars (cs : List Char) : List Char :=
  ((cs.dropWhile isPySpace).reverse.dropWhile isPySpace).reverse

def strip (s : String) : String := String.mk (stripChars s.data)

/-! ## Game walker (`Analyzer.analyze_pgn`, analyzer.py lines 264-332)

The board, move and PGN types come from the external python-chess library;
the embedding is generic over them.  `ChessOps` collects exactly the board
operations the walker calls; `Oracle` collects the three stockfish queries
(`engine.analyse(board, limit, multipv=1)` followed by
`["score"].pov(side)`, `engine.play(board, limit).move`, and
`engine.analyse(board, limit, root_moves=[move])` followed by
`["score"].pov(side)`).  The `.pov(side)` application is modelled by the
`Bool` argument of the query (`true` = white, as `board.turn`). -/

structure ChessOps (P M : Type) where
  turn : P → Bool
  push : P → M → P
  fen : P → String
  san : P → M → String
  uci : M → String

structure Oracle (P M : Type) where
  analyse : P → Bool → EngineScore
  play : P → M
  analyseMove : P → M → Bool → EngineScore

/-- The Analyzer configuration fields `analyze_pgn` reads: `self.who`
(white, black) side filter, `self.thresholds`, `self.min_cp_show`.
The search depth only parametrizes the engine `Limit` and is absorbed
into the `Oracle` functions (fixed per run). -/
structure AnalyzerConfig where
  who : Bool × Bool
  thresholds : ThresholdConfig
  min_cp_show : Int

/-- One entry of `result["errors"]` (analyzer.py lines 325-331). -/
structure ErrorRecord where
  ply : Nat
  move_no : Nat
  who : String
  san : String
  cp_loss : Int
  category : String
  fen_before : String
  fen_after : String
  best_uci : String
  best_san : String
  played_uci : String
  played_san : String
deriving Repr, DecidableEq

/-- The loop state of `analyze_pgn`: `board`, `ply`, `result["errors"]`. -/
structure WalkState (P : Type) where
  board : P
  ply : Nat
  errors : List ErrorRecord
deriving Repr

/-- One iteration of the `while not node.is_end()` loop
(analyzer.py lines 291-331).  `node.san()` at line 322 is the SAN of the
played move from the pre-move board, i.e. `board.san(move)` as computed at
line 315 before the push. -/
def analyzeStep {P M : Type} (C : ChessOps P M) (O : Oracle P M)
    (cfg : AnalyzerConfig) (st : WalkState P) (move : M) : WalkState P :=
  let board := st.board
  let side_to_move := C.turn board
  let ply := st.ply + 1
  let mover_is_white := side_to_move
  if (mover_is_white && !cfg.who.1) || (!mover_is_white && !cfg.who.2) then
    { board := C.push board move, ply := ply, errors := st.errors }
  else
    let fen_before := C.fen board
    let best_cp := score_to_cp (O.analyse board side_to_move)
    let best_move_obj := O.play board
    let best_uci := C.uci best_move_obj
    let best_san := C.san board best_move_obj
    let played_cp := score_to_cp (O.analyseMove board move side_to_move)
    let played_uci := C.uci move
    let played_san := C.san board move
    let delta := best_cp - played_cp
    let board2 := C.push board move
    match classify delta cfg.thresholds with
    | some label =>
      if cfg.min_cp_show ≤ delta then
        { board := board2, ply := ply,
          errors := st.errors ++ [{
            ply := ply, move_no := (ply + 1) / 2,
            who := if mover_is_white then "white" else "black",
            san := C.san board move,
            cp_loss := delta, category := label,
            fen_before := fen_before, fen_after := C.fen board2,
            best_uci := best_uci, best_san := best_san,
            played_uci := played_uci, played_san := played_san }] }
      else { board := board2, ply := ply, errors := st.errors }
    | none => { board := board2, ply := ply, errors := st.errors }

/-- A parsed PGN game, as `chess.pgn.read_game` returns it: the headers
mapping (`headers.get`), the starting board (`game.board()`), and the
mainline moves (`node.variation(0)` chain). -/
structure Game (P M : Type) where
  headers : String → Option String
  initialBoard : P
  mainline : List M

/-- The dict `analyze_pgn` returns.  The elo fields are `headers.get`
results (absent → `none`); the degenerate record stores the Python string
`""`, embedded as `some ""`. -/
structure GameResult where
  game_id : String
  white : String
  black : String
  white_elo : Option String
  black_elo : Option String
  date : String
  time_control : String
  opening : String
  errors : List ErrorRecord
deriving Repr, DecidableEq

/-- The record returned for empty or unparseable PGN text
(analyzer.py lines 266 and 269). -/
def emptyGameResult : GameResult :=
  { game_id := "", white := "?", black := "?", white_elo := some "",
    black_elo := some "", date := "", time_control := "", opening := "",
    errors := [] }

/-- Python `s.split("/")[-1]`. -/
def lastSlashSegment (s : String) : String := (s.splitOn "/").getLastD ""

/-- `headers.get("LichessURL","").split("/")[-1] or
headers.get("Site","").split("/")[-1]` (analyzer.py line 272). -/
def gidOf (headers : String → Option String) : String :=
  let a := lastSlashSegment ((headers "LichessURL").getD "")
  if a = "" then lastSlashSegment ((headers "Site").getD "") else a

/-- `Analyzer.analyze_pgn` (analyzer.py lines 264-332), with the PGN
parser `chess.pgn.read_game` passed in as a function. -/
def analyze_pgn {P M : Type} (C : ChessOps P M) (O : Oracle P M)
    (cfg : AnalyzerConfig) (read_game : String → Option (Game P M))
    (pgn_text : String) : GameResult :=
  if strip pgn_text = "" then emptyGameResult
  else
    match read_game pgn_text with
    | none => emptyGameResult
    | some game =>
      let headers := game.headers
      let init : WalkState P :=
        { board := game.initialBoard, ply := 0, errors := [] }
      let final := game.mainline.foldl (analyzeStep C O cfg) init
      { game_id := gidOf headers,
        white := (headers "White").getD "?",
        black := (headers "Black").getD "?",
        white_elo := headers "WhiteElo",
        black_elo := headers "BlackElo",
        date := (headers "UTCDate").getD ((headers "Date").getD ""),
        time_control := (headers "TimeControl").getD "",
        opening := (headers "Opening").getD "",
        errors := final.errors }

/-- `delta = best_cp - played_cp` for a ply queried at position `p` with
played move `m`: both oracle queries pov-ed to the side to move at `p`. -/
def queryDelta {P M : Type} (C : ChessOps P M) (O : Oracle P M)
    (p : P) (m : M) : Int :=
  score_to_cp (O.analyse p (C.turn p)) -
    score_to_cp (O.analyseMove p m (C.turn p))

/-- What is true of every record the walker appends: its fields are taken
at a single pre-move position `p` and played move `m` (both queries at `p`,
`fen_before = fen p`, `fen_after = fen (push p m)`), and it was emitted
under the classifier/min-display gate. -/
def RecordMatches {P M : Type} (C : ChessOps P M) (O : Oracle P M)
    (cfg : AnalyzerConfig) (r : ErrorRecord) : Prop :=
  ∃ p m,
    r.fen_before = C.fen p ∧
    r.fen_after = C.fen (C.push p m) ∧
    r.played_uci = C.uci m ∧
    r.played_san = C.san p m ∧
    r.cp_loss = queryDelta C O p m ∧
    (classify r.cp_loss cfg.thresholds).isSome = true ∧
    cfg.min_cp_show ≤ r.cp_loss

lemma analyzeStep_records {P M : Type} (C : ChessOps P M) (O : Oracle P M)
    (cfg : AnalyzerConfig) (st : WalkState P) (move : M)
    (h : ∀ r ∈ st.errors, RecordMatches C O cfg r) :
    ∀ r ∈ (analyzeStep C O cfg st move).errors, RecordMatches C O cfg r := by
  intro r hr
  unfold analyzeStep at hr
  by_cases hwho : ((C.turn st.board && !cfg.who.1) ||
      (!(C.turn st.board) && !cfg.who.2)) = true
  · simp only [hwho, if_true] at hr
    exact h r hr
  · simp only [hwho, if_false, Bool.not_eq_true] at hr
    rw [Bool.not_eq_true] at hwho
    simp only [hwho, Bool.false_eq_true, if_false] at hr
    set delta := score_to_cp (O.analyse st.board (C.turn st.board)) -
      score_to_cp (O.analyseMove st.board move (C.turn st.board)) with hdelta
    cases hcl : classify delta cfg.thresholds with
    | none => simp only [hcl] at hr; exact h r hr
    | some label =>
      simp only [hcl] at hr
      by_cases hmin : cfg.min_cp_show ≤ delta
      · simp only [hmin, if_true, List.mem_append, List.mem_singleton] at hr
        rcases hr with hr | hr
        · exact h r hr
        · subst hr
          refine ⟨st.board, move, rfl, rfl, rfl, rfl, rfl, ?_, hmin⟩
          show (classify delta cfg.thresholds).isSome = true
          simp [hcl]
      · simp only [hmin, if_false] at hr
        exact h r hr

lemma walk_records {P M : Type} (C : ChessOps P M) (O : Oracle P M)
    (cfg : AnalyzerConfig) :
    ∀ (moves : List M) (st : WalkState P),
      (∀ r ∈ st.errors, RecordMatches C O cfg r) →
      ∀ r ∈ (moves.foldl (analyzeStep C O cfg) st).errors,
        RecordMatches C O cfg r := by
  intro moves
  induction moves with
  | nil => intro st h; simpa using h
  | cons mv rest ih =>
    intro st h
    simpa using ih (analyzeStep C O cfg st mv)
      (analyzeStep_records C O cfg st mv h)

lemma analyze_pgn_records {P M : Type} (C : ChessOps P M) (O : Oracle P M)
    (cfg : AnalyzerConfig) (read_game : String → Option (Game P M))
    (pgn_text : String) :
    ∀ r ∈ (analyze_pgn C O cfg read_game pgn_text).errors,
      RecordMatches C O cfg r := by
  intro r hr
  unfold analyze_pgn at hr
  by_cases htrim : strip pgn_text = ""
  · simp [htrim, emptyGameResult] at hr
  · simp only [htrim, if_false] at hr
    cases hrd : read_game pgn_text with
    | none => simp [hrd, emptyGameResult] at hr
    | some game =>
      simp only [hrd] at hr
      exact walk_records C O cfg game.mainline
        { board := game.initialBoard, ply := 0, errors := [] }
        (by intro r hr; simp at hr) r hr

/-! ### Concrete instantiation used by the witnesses

Board = list of played moves, move = string; the oracle always answers
+120 for the best line and -40 for the played move (the spec's §8 scenario:
`cp_loss = 160`, tier `mistake` at thresholds {50, 150, 300}). -/

def demoOps : ChessOps (List String) String :=
  { turn := fun p => p.length % 2 == 0,
    push := fun p m => p ++ [m],
    fen := fun p => String.mk (p.map String.data).flatten,
    san := fun _ m => m,
    uci := fun m => m }

def demoOracle : Oracle (List String) String :=
  { analyse := fun _ _ => .cp 120,
    play := fun _ => "d1h5",
    analyseMove := fun _ _ _ => .cp (-40) }

def demoCfg : AnalyzerConfig :=
  { who := (true, true), thresholds := ⟨50, 150, 300⟩, min_cp_show := 50 }

def demoGame : Game (List String) String :=
  { headers := fun _ => none, initialBoard := [], mainline := ["e2e4"] }

def demoGameNoMoves : Game (List String) String :=
  { headers := fun _ => none, initialBoard := [], mainline := [] }

def demoState : WalkState (List String) :=
  { board := [], ply := 0, errors := [] }

/-- The single record the demo run emits. -/
def demoRecord : ErrorRecord :=
  { ply := 1, move_no := 1, who := "white", san := "e2e4", cp_loss := 160,
    category := "mistake", fen_before := "", fen_after := "e2e4",
    best_uci := "d1h5", best_san := "d1h5", played_uci := "e2e4",
    played_san := "e2e4" }

/-- C1: for a ply the side filter does not exclude, the walker appends a
flagged-move record exactly when the classifier returns a non-null tier
for `cp_loss` and `cp_loss` is at least `min_cp_show`; when either
condition fails the error list is unchanged. -/
theorem walker_emission_iff {P M : Type} (C : ChessOps P M) (O : Oracle P M)
    (cfg : AnalyzerConfig) (st : WalkState P) (move : M)
    (hinc : ((C.turn st.board && !cfg.who.1) ||
      (!(C.turn st.board) && !cfg.who.2)) = false) :
    ((classify (queryDelta C O st.board move) cfg.thresholds).isSome = true ∧
        cfg.min_cp_show ≤ queryDelta C O st.board move →
      ∃ rec, (analyzeStep C O cfg st move).errors = st.errors ++ [rec]) ∧
    (¬ ((classify (queryDelta C O st.board move) cfg.thresholds).isSome = true ∧
        cfg.min_cp_show ≤ queryDelta C O st.board move) →
      (analyzeStep C O cfg st move).errors = st.errors) := by
  unfold queryDelta
  constructor
  · rintro ⟨hcls, hmin⟩
    unfold analyzeStep
    simp only [hinc, Bool.false_eq_true, if_false]
    cases hcl : classify (score_to_cp (O.analyse st.board (C.turn st.board)) -
        score_to_cp (O.analyseMove st.board move (C.turn st.board)))
        cfg.thresholds with
    | none => rw [hcl] at hcls; simp at hcls
    | some label =>
      simp only [hcl, hmin, if_true]
      exact ⟨_, rfl⟩
  · intro hn
    unfold analyzeStep
    simp only [hinc, Bool.false_eq_true, if_false]
    cases hcl : classify (score_to_cp (O.analyse st.board (C.turn st.board)) -
        score_to_cp (O.analyseMove st.board move (C.turn st.board)))
        cfg.thresholds with
    | none => rfl
    | some label =>
      by_cases hmin : cfg.min_cp_show ≤
          score_to_cp (O.analyse st.board (C.turn st.board)) -
            score_to_cp (O.analyseMove st.board move (C.turn st.board))
      · exact absurd ⟨by rw [hcl]; rfl, hmin⟩ hn
      · simp only [hmin, if_false]

/-- Witness for C1 at the demo instantiation: white to move, both sides
analyzed, `cp_loss = 160`. -/
theorem walker_emission_iff_witness :
    ((classify (queryDelta demoOps demoOracle demoState.board "e2e4")
        demoCfg.thresholds).isSome = true ∧
        demoCfg.min_cp_show ≤
          queryDelta demoOps demoOracle demoState.board "e2e4" →
      ∃ rec, (analyzeStep demoOps demoOracle demoCfg demoState "e2e4").errors =
        demoState.errors ++ [rec]) ∧
    (¬ ((classify (queryDelta demoOps demoOracle demoState.board "e2e4")
        demoCfg.thresholds).isSome = true ∧
        demoCfg.min_cp_show ≤
          queryDelta demoOps demoOracle demoState.board "e2e4") →
      (analyzeStep demoOps demoOracle demoCfg demoState "e2e4").errors =
        demoState.errors) :=
  walker_emission_iff demoOps demoOracle demoCfg demoState "e2e4" (by decide)

/-- C2: if the oracle's unconstrained best evaluation is never below the
constrained evaluation of the played move at the same position and
perspective (the spec's "best_score is a maximum by definition of the
oracle query"), then every emitted record has `cp_loss ≥ 0`. -/
theorem analyze_pgn_cp_loss_nonneg {P M : Type} (C : ChessOps P M)
    (O : Oracle P M) (cfg : AnalyzerConfig)
    (hOracle : ∀ (p : P) (m : M),
      score_to_cp (O.analyseMove p m (C.turn p)) ≤
        score_to_cp (O.analyse p (C.turn p)))
    (read_game : String → Option (Game P M)) (pgn_text : String)
    (r : ErrorRecord)
    (hr : r ∈ (analyze_pgn C O cfg read_game pgn_text).errors) :
    0 ≤ r.cp_loss := by
  obtain ⟨p, m, _, _, _, _, hcp, _, _⟩ :=
    analyze_pgn_records C O cfg read_game pgn_text r hr
  rw [hcp, queryDelta]
  have := hOracle p m
  omega

/-- Witness for C2: the demo run's record has `cp_loss = 160 ≥ 0`. -/
theorem analyze_pgn_cp_loss_nonneg_witness : 0 ≤ demoRecord.cp_loss :=
  analyze_pgn_cp_loss_nonneg demoOps demoOracle demoCfg
    (by intro p m; simp [demoOracle, score_to_cp])
    (fun _ => some demoGame) "x" demoRecord (by decide)

/-- C6: every emitted record is accounted for by a single pre-move
position `p` and played move `m`: the best-move query and the played-move
query are both issued at `p`, `cp_loss` is the difference of the two
results (pov-ed to the side to move at `p`), and the record's pre-move
position is exactly `p`. -/
theorem analyze_pgn_queries_same_position {P M : Type} (C : ChessOps P M)
    (O : Oracle P M) (cfg : AnalyzerConfig)
    (read_game : String → Option (Game P M)) (pgn_text : String)
    (r : ErrorRecord)
    (hr : r ∈ (analyze_pgn C O cfg read_game pgn_text).errors) :
    ∃ (p : P) (m : M),
      r.fen_before = C.fen p ∧
      r.played_uci = C.uci m ∧
      r.cp_loss = score_to_cp (O.analyse p (C.turn p)) -
        score_to_cp (O.analyseMove p m (C.turn p)) := by
  obtain ⟨p, m, hfen, _, huci, _, hcp, _, _⟩ :=
    analyze_pgn_records C O cfg read_game pgn_text r hr
  exact ⟨p, m, hfen, huci, by rw [hcp, queryDelta]⟩

/-- Witness for C6 at the demo record. -/
theorem analyze_pgn_queries_same_position_witness :
    ∃ (p : List String) (m : String),
      demoRecord.fen_before = demoOps.fen p ∧
      demoRecord.played_uci = demoOps.uci m ∧
      demoRecord.cp_loss =
        score_to_cp (demoOracle.analyse p (demoOps.turn p)) -
          score_to_cp (demoOracle.analyseMove p m (demoOps.turn p)) :=
  analyze_pgn_queries_same_position demoOps demoOracle demoCfg
    (fun _ => some demoGame) "x" demoRecord (by decide)

/-- C9: empty text and unparseable text both return the fixed
empty-but-valid header record (whose error list is empty), and a game
that parses to zero mainline moves contributes zero error records. -/
theorem analyze_pgn_degenerate_inputs {P M : Type} (C : ChessOps P M)
    (O : Oracle P M) (cfg : AnalyzerConfig)
    (read_game : String → Option (Game P M)) (pgn_text : String) :
    (strip pgn_text = "" →
      analyze_pgn C O cfg read_game pgn_text = emptyGameResult) ∧
    (read_game pgn_text = none →
      analyze_pgn C O cfg read_game pgn_text = emptyGameResult) ∧
    (∀ g : Game P M, read_game pgn_text = some g → g.mainline = [] →
      (analyze_pgn C O cfg read_game pgn_text).errors = []) ∧
    emptyGameResult.errors = [] := by
  refine ⟨fun htrim => ?_, fun hrd => ?_, fun g hg hm => ?_, rfl⟩
  · unfold analyze_pgn
    simp [htrim]
  · unfold analyze_pgn
    by_cases htrim : strip pgn_text = ""
    · simp [htrim]
    · simp [htrim, hrd]
  · unfold analyze_pgn
    by_cases htrim : strip pgn_text = ""
    · simp [htrim, emptyGameResult]
    · simp [htrim, hg, hm]

/-- Witness for C9: whitespace-only text, a failing parser, and a
zero-move game, each at the demo instantiation. -/
theorem analyze_pgn_degenerate_inputs_witness :
    analyze_pgn demoOps demoOracle demoCfg (fun _ => some demoGame) "  " =
      emptyGameResult ∧
    analyze_pgn demoOps demoOracle demoCfg (fun _ => none) "x" =
      emptyGameResult ∧
    (analyze_pgn demoOps demoOracle demoCfg
      (fun _ => some demoGameNoMoves) "x").errors = [] :=
  ⟨(analyze_pgn_degenerate_inputs demoOps demoOracle demoCfg
      (fun _ => some demoGame) "  ").1 (by decide),
   (analyze_pgn_degenerate_inputs demoOps demoOracle demoCfg
      (fun _ => none) "x").2.1 rfl,
   (analyze_pgn_degenerate_inputs demoOps demoOracle demoCfg
      (fun _ => some demoGameNoMoves) "x").2.2.1 demoGameNoMoves rfl rfl⟩

/-- C10: every emitted record carries a `fen_after` field, and it is the
position reached by applying the record's played move to the position
whose FEN is `fen_before`. -/
theorem analyze_pgn_fen_after_from_push {P M : Type} (C : ChessOps P M)
    (O : Oracle P M) (cfg : AnalyzerConfig)
    (read_game : String → Option (Game P M)) (pgn_text : String)
    (r : ErrorRecord)
    (hr : r ∈ (analyze_pgn C O cfg read_game pgn_text).errors) :
    ∃ (p : P) (m : M),
      r.fen_before = C.fen p ∧
      r.played_uci = C.uci m ∧
      r.fen_after = C.fen (C.push p m) := by
  obtain ⟨p, m, hfen, hafter, huci, _, _, _, _⟩ :=
    analyze_pgn_records C O cfg read_game pgn_text r hr
  exact ⟨p, m, hfen, huci, hafter⟩

/-- Witness for C10 at the demo record: `fen_after = "e2e4"` is the push
of `"e2e4"` onto the empty starting board. -/
theorem analyze_pgn_fen_after_from_push_witness :
    ∃ (p : List String) (m : String),
      demoRecord.fen_before = demoOps.fen p ∧
      demoRecord.played_uci = demoOps.uci m ∧
      demoRecord.fen_after = demoOps.fen (demoOps.push p m) :=
  analyze_pgn_fen_after_from_push demoOps demoOracle demoCfg
    (fun _ => some demoGame) "x" demoRecord (by decide)

/-! ## Retrieval (`split_pgn_bulk`, `Analyzer.fetch_pgns`,
analyzer.py lines 47-52 and 160-262)

The berserk client call `self.client.games.export_by_player` and the raw
HTTP transport `urllib.request.urlopen` are external; they enter as
function parameters returning `Except` (an exception in Python is the
`.error` case).  Each loop additionally returns the list of parameter sets
it actually invoked its transport on, so that "later attempts are never
tried" is a provable statement about the embedding. -/

/-- `"[Event "`: the event-boundary marker of `split_pgn_bulk`. -/
def eventMarker : List Char := "[Event ".data

/-- Character-level reading of the Python `re.split(r'\r?\n\r?\n(?=\[Event )',
text)`: cut at every blank line (each newline optionally preceded by a
carriage return) that is immediately followed by the event marker; the
delimiter is dropped, the marker stays with the following part. -/
def splitEvAux : List Char → List Char → List (List Char)
  | acc, '\r' :: '\n' :: '\r' :: '\n' :: rest =>
    if eventMarker.isPrefixOf rest then acc.reverse :: splitEvAux [] rest
    else splitEvAux ('\r' :: acc) ('\n' :: '\r' :: '\n' :: rest)
  | acc, '\r' :: '\n' :: '\n' :: rest =>
    if eventMarker.isPrefixOf rest then acc.reverse :: splitEvAux [] rest
    else splitEvAux ('\r' :: acc) ('\n' :: '\n' :: rest)
  | acc, '\n' :: '\r' :: '\n' :: rest =>
    if eventMarker.isPrefixOf rest then acc.reverse :: splitEvAux [] rest
    else splitEvAux ('\n' :: acc) ('\r' :: '\n' :: rest)
  | acc, '\n' :: '\n' :: rest =>
    if eventMarker.isPrefixOf rest then acc.reverse :: splitEvAux [] rest
    else splitEvAux ('\n' :: acc) ('\n' :: rest)
  | acc, c :: rest => splitEvAux (c :: acc) rest
  | acc, [] => [acc.reverse]
termination_by _ l => l.length
decreasing_by all_goals simp_arith

/-- `split_pgn_bulk` (analyzer.py lines 47-52). -/
def split_pgn_bulk (text : String) : List String :=
  let t := strip text
  if t = "" then []
  else
    (((splitEvAux [] t.data).map fun cs => strip (String.mk cs)).filter
      fun p => p ≠ "")

/-- Python's substring test `pat in s`. -/
def containsSub (pat : List Char) : List Char → Bool
  | [] => pat.isPrefixOf ([] : List Char)
  | c :: rest => pat.isPrefixOf (c :: rest) || containsSub pat rest

/-- `"\n\n[Event " in pgn` (analyzer.py line 181). -/
def contains_bulk_marker (pgn : String) : Bool :=
  containsSub "\n\n[Event ".data pgn.data

/-- The request parameter dict built by `fetch_pgns` (analyzer.py lines
215-231).  `untilMs` is the `"until"` key (milliseconds). -/
structure FetchParams where
  max : Nat
  moves : Bool
  opening : Bool
  clocks : Bool
  evals : Bool
  as_pgn : Bool
  since : Option Int := none
  untilMs : Option Int := none
  perf_type : Option String := none
deriving Repr, DecidableEq

/-- The Analyzer fields `fetch_pgns` reads: `self.max_games`, `self.since`,
`self.until`, `self.perf`. -/
structure FetchConfig where
  max_games : Nat
  since : Option String := none
  untilDate : Option String := none
  perf : List String := []
deriving Repr

/-- `base_params` with the optional since/until bounds (analyzer.py lines
215-226); `to_millis` is the external datetime conversion, and the upper
bound gets the whole-day `+ 24*3600*1000 - 1` adjustment. -/
def baseParams (to_millis : String → Int) (cfg : FetchConfig) : FetchParams :=
  let p : FetchParams :=
    { max := cfg.max_games, moves := true, opening := true, clocks := false,
      evals := false, as_pgn := true }
  let p := match cfg.since with
    | some s => { p with since := some (to_millis s) }
    | none => p
  match cfg.untilDate with
  | some u => { p with untilMs := some (to_millis u + 24 * 3600 * 1000 - 1) }
  | none => p

/-- The ordered attempt list (analyzer.py lines 228-232): the perf-filtered
variant first when a perf filter is configured, then the unfiltered base
parameters. -/
def attemptsList (to_millis : String → Int) (cfg : FetchConfig) :
    List FetchParams :=
  let base := baseParams to_millis cfg
  (if cfg.perf ≠ [] then
    [{ base with perf_type := some (String.intercalate "," cfg.perf) }]
  else []) ++ [base]

/-- `Analyzer._download_via_berserk` (analyzer.py lines 168-185) over the
external `client.games.export_by_player`, whose yielded items are modelled
as the game texts they decode to: empty items are dropped, an item
containing the bulk marker is split, others are appended stripped. -/
def download_via_berserk
    (export_by_player : String → FetchParams → Except String (List String))
    (uname : String) (params : FetchParams) : Except String (List String) :=
  match export_by_player uname params with
  | .error e => .error e
  | .ok items =>
    .ok (items.foldl (fun pgns item =>
      let pgn := strip item
      if pgn = "" then pgns
      else if contains_bulk_marker pgn then pgns ++ split_pgn_bulk pgn
      else pgns ++ [pgn]) [])

/-- `Analyzer._download_via_http` (analyzer.py lines 187-210) over the raw
transport returning the bulk response body, which is split on the event
boundary. -/
def download_via_http
    (http_get : String → FetchParams → Except String String)
    (uname : String) (params : FetchParams) : Except String (List String) :=
  match http_get uname params with
  | .error e => .error e
  | .ok raw => .ok (split_pgn_bulk raw)

/-- The berserk attempt loop (analyzer.py lines 234-244): each attempt is
tried in order; a raising attempt is logged and skipped; the loop breaks at
the first attempt returning a nonempty list.  Returns the final `all_pgns`
together with the parameter sets actually invoked. -/
def tryBerserk (fetch : FetchParams → Except String (List String)) :
    List FetchParams → List String × List FetchParams
  | [] => ([], [])
  | p :: rest =>
    match fetch p with
    | .ok pgns =>
      if pgns = [] then
        let r := tryBerserk fetch rest
        (r.1, p :: r.2)
      else (pgns, [p])
    | .error _ =>
      let r := tryBerserk fetch rest
      (r.1, p :: r.2)

/-- The HTTP fallback loop (analyzer.py lines 246-255): same first-success
rule, but the `try` wraps the whole loop, so a raising attempt aborts the
remaining fallback attempts. -/
def tryHttp (fetch : FetchParams → Except String (List String)) :
    List FetchParams → List String × List FetchParams
  | [] => ([], [])
  | p :: rest =>
    match fetch p with
    | .ok pgns =>
      if pgns = [] then
        let r := tryHttp fetch rest
        (r.1, p :: r.2)
      else (pgns, [p])
    | .error _ => ([], [p])

inductive FetchSource where
  | berserk
  | http
deriving Repr, DecidableEq

/-- The exact message of the terminal `RuntimeError`
(analyzer.py line 258). -/
def noGamesMsg : String :=
  "No games fetched. Reasons: wrong username, filters, or no public games."

/-- `Analyzer.fetch_pgns` (analyzer.py lines 212-262).  `user_check` is
`self._assert_user_exists()` (its `RuntimeError` propagates).  The second
component is the trace of transport invocations. -/
def fetch_pgns (user_check : Except String Unit)
    (export_by_player : String → FetchParams → Except String (List String))
    (http_get : String → FetchParams → Except String String)
    (to_millis : String → Int) (uname : String) (cfg : FetchConfig) :
    Except String (List String) × List (FetchSource × FetchParams) :=
  match user_check with
  | .error e => (.error e, [])
  | .ok _ =>
    let attempts := attemptsList to_millis cfg
    let b := tryBerserk (download_via_berserk export_by_player uname) attempts
    if b.1 = [] then
      let h := tryHttp (download_via_http http_get uname) attempts
      let log := b.2.map (fun p => (FetchSource.berserk, p)) ++
        h.2.map (fun p => (FetchSource.http, p))
      if h.1 = [] then (.error noGamesMsg, log) else (.ok h.1, log)
    else (.ok b.1, b.2.map (fun p => (FetchSource.berserk, p)))

/-- C7: with a game-speed filter configured, the attempt list is the
filtered query followed by the same query with the filter dropped; each
attempt loop stops at the first attempt producing at least one game text
and invokes nothing afterwards; whenever the run's trace contains any
raw-transport (http) invocation, the whole structured (berserk) phase
yielded nothing; and when the structured phase succeeds the run returns
its result with a trace containing only structured invocations. -/
theorem fetch_attempts_sequential
    (eb : String → FetchParams → Except String (List String))
    (hg : String → FetchParams → Except String String)
    (tm : String → Int) (uname : String) (cfg : FetchConfig)
    (hperf : cfg.perf ≠ []) :
    (attemptsList tm cfg =
      [{ baseParams tm cfg with
          perf_type := some (String.intercalate "," cfg.perf) },
        baseParams tm cfg]) ∧
    (∀ (fetch : FetchParams → Except String (List String)) (p : FetchParams)
        (rest : List FetchParams) (l : List String),
      fetch p = .ok l → l ≠ [] → tryBerserk fetch (p :: rest) = (l, [p])) ∧
    (∀ (fetch : FetchParams → Except String (List String)) (p : FetchParams)
        (rest : List FetchParams) (l : List String),
      fetch p = .ok l → l ≠ [] → tryHttp fetch (p :: rest) = (l, [p])) ∧
    ((tryBerserk (download_via_berserk eb uname) (attemptsList tm cfg)).1 ≠ [] →
      fetch_pgns (.ok ()) eb hg tm uname cfg =
        (.ok (tryBerserk (download_via_berserk eb uname)
            (attemptsList tm cfg)).1,
          (tryBerserk (download_via_berserk eb uname)
            (attemptsList tm cfg)).2.map fun p => (FetchSource.berserk, p))) ∧
    (∀ q : FetchParams,
      (FetchSource.http, q) ∈ (fetch_pgns (.ok ()) eb hg tm uname cfg).2 →
      (tryBerserk (download_via_berserk eb uname)
        (attemptsList tm cfg)).1 = []) := by
  refine ⟨?_, ?_, ?_, ?_, ?_⟩
  · simp [attemptsList, hperf]
  · intro fetch p rest l hf hne
    unfold tryBerserk
    rw [hf]
    simp [hne]
  · intro fetch p rest l hf hne
    unfold tryHttp
    rw [hf]
    simp [hne]
  · intro hne
    unfold fetch_pgns
    simp only [if_neg hne]
  · intro q hq
    by_cases hb : (tryBerserk (download_via_berserk eb uname)
        (attemptsList tm cfg)).1 = []
    · exact hb
    · exfalso
      unfold fetch_pgns at hq
      simp only [if_neg hb] at hq
      simp only [List.mem_map] at hq
      obtain ⟨p, _, hp⟩ := hq
      exact FetchSource.noConfusion (congrArg Prod.fst hp)

/-- Demo retrieval scenario for the C7 witness: a blitz filter is
configured, the filtered berserk attempt yields nothing, the unfiltered
one yields one game. -/
def demoFetchCfg : FetchConfig := { max_games := 10, perf := ["blitz"] }

def demoExport : String → FetchParams → Except String (List String) :=
  fun _ p => if p.perf_type.isSome then .ok [] else .ok ["game1"]

def demoHttpGet : String → FetchParams → Except String String :=
  fun _ _ => .ok ""

/-- Witness for C7 at the demo retrieval scenario. -/
theorem fetch_attempts_sequential_witness :
    (attemptsList (fun _ => 0) demoFetchCfg =
      [{ baseParams (fun _ => 0) demoFetchCfg with
          perf_type := some (String.intercalate "," demoFetchCfg.perf) },
        baseParams (fun _ => 0) demoFetchCfg]) ∧
    (∀ (fetch : FetchParams → Except String (List String)) (p : FetchParams)
        (rest : List FetchParams) (l : List String),
      fetch p = .ok l → l ≠ [] → tryBerserk fetch (p :: rest) = (l, [p])) ∧
    (∀ (fetch : FetchParams → Except String (List String)) (p : FetchParams)
        (rest : List FetchParams) (l : List String),
      fetch p = .ok l → l ≠ [] → tryHttp fetch (p :: rest) = (l, [p])) ∧
    ((tryBerserk (download_via_berserk demoExport "alice")
        (attemptsList (fun _ => 0) demoFetchCfg)).1 ≠ [] →
      fetch_pgns (.ok ()) demoExport demoHttpGet (fun _ => 0) "alice"
          demoFetchCfg =
        (.ok (tryBerserk (download_via_berserk demoExport "alice")
            (attemptsList (fun _ => 0) demoFetchCfg)).1,
          (tryBerserk (download_via_berserk demoExport "alice")
            (attemptsList (fun _ => 0) demoFetchCfg)).2.map
              fun p => (FetchSource.berserk, p))) ∧
    (∀ q : FetchParams,
      (FetchSource.http, q) ∈ (fetch_pgns (.ok ()) demoExport demoHttpGet
        (fun _ => 0) "alice" demoFetchCfg).2 →
      (tryBerserk (download_via_berserk demoExport "alice")
        (attemptsList (fun _ => 0) demoFetchCfg)).1 = []) :=
  fetch_attempts_sequential demoExport demoHttpGet (fun _ => 0) "alice"
    demoFetchCfg (by decide)

/-- C8 (amended): under a verified user, retrieval returns the list
produced by the first successful attempt — structured phase first, then
the raw-transport fallback — and fails with the exact no-games message
precisely when both phases yielded nothing.  (The source never
de-duplicates; see the counterexample.) -/
theorem fetch_pgns_result_or_error
    (eb : String → FetchParams → Except String (List String))
    (hg : String → FetchParams → Except String String)
    (tm : String → Int) (uname : String) (cfg : FetchConfig) :
    ((fetch_pgns (.ok ()) eb hg tm uname cfg).1 = .error noGamesMsg ↔
      (tryBerserk (download_via_berserk eb uname) (attemptsList tm cfg)).1 = []
        ∧
      (tryHttp (download_via_http hg uname) (attemptsList tm cfg)).1 = []) ∧
    ((tryBerserk (download_via_berserk eb uname) (attemptsList tm cfg)).1 ≠ []
        →
      (fetch_pgns (.ok ()) eb hg tm uname cfg).1 =
        .ok (tryBerserk (download_via_berserk eb uname)
          (attemptsList tm cfg)).1) ∧
    ((tryBerserk (download_via_berserk eb uname) (attemptsList tm cfg)).1 = []
        →
      (tryHttp (download_via_http hg uname) (attemptsList tm cfg)).1 ≠ [] →
      (fetch_pgns (.ok ()) eb hg tm uname cfg).1 =
        .ok (tryHttp (download_via_http hg uname)
          (attemptsList tm cfg)).1) := by
  by_cases hb : (tryBerserk (download_via_berserk eb uname)
      (attemptsList tm cfg)).1 = []
  · by_cases hh : (tryHttp (download_via_http hg uname)
        (attemptsList tm cfg)).1 = []
    · refine ⟨?_, fun hne => absurd hb hne, fun _ hne => absurd hh hne⟩
      unfold fetch_pgns
      simp [hb, hh]
    · refine ⟨?_, fun hne => absurd hb hne, fun _ _ => ?_⟩
      · unfold fetch_pgns
        simp [hb, hh]
      · unfold fetch_pgns
        simp [hb, hh]
  · refine ⟨?_, fun _ => ?_, fun heq => absurd heq hb⟩
    · unfold fetch_pgns
      simp [hb]
    · unfold fetch_pgns
      simp [hb]

/-- Witness for C8: a run where everything yields nothing ends in the
exact no-games error; a run whose first structured attempt yields one
game returns it. -/
theorem fetch_pgns_result_or_error_witness :
    (fetch_pgns (.ok ()) (fun _ _ => .ok []) (fun _ _ => .ok "")
      (fun _ => 0) "alice" { max_games := 5 }).1 = .error noGamesMsg ∧
    (fetch_pgns (.ok ()) (fun _ _ => .ok ["a"]) (fun _ _ => .ok "")
      (fun _ => 0) "alice" { max_games := 5 }).1 = .ok ["a"] :=
  ⟨(fetch_pgns_result_or_error (fun _ _ => .ok []) (fun _ _ => .ok "")
      (fun _ => 0) "alice" { max_games := 5 }).1.mpr ⟨rfl, rfl⟩,
   (fetch_pgns_result_or_error (fun _ _ => .ok ["a"]) (fun _ _ => .ok "")
      (fun _ => 0) "alice" { max_games := 5 }).2.1 (by decide)⟩

/-- C8 counterexample: a transport yielding the same game text twice makes
retrieval return a list with two equal game texts — the result is not
de-duplicated. -/
theorem fetch_pgns_duplicates :
    (fetch_pgns (.ok ()) (fun _ _ => .ok ["g", "g"]) (fun _ _ => .ok "")
      (fun _ => 0) "alice" { max_games := 5 }).1 = .ok ["g", "g"] ∧
    ¬ (["g", "g"] : List String).Nodup :=
  ⟨rfl, by decide⟩

end Tactikcheck
